import Mathlib

/-!
Verification development for the LEMI-423 reader/processor
(`LEMI_423_Reader.py`, `Process_LEMI_423.py`).

Conventions of the shallow embedding:
* Bytes are `Nat` values, constrained to `< 256` where it matters.
* Machine integers of the record are decoded over `Nat`/`Int` with explicit
  two's-complement arithmetic (no bit-vector types).
* Python floats are modelled over `ℚ`: the claims under study are about the
  exact linear form of calibration and parsing, not rounding.
* Fallible Python code (`try`/`except`, dict `KeyError`, list `IndexError`,
  `int()`/`float()` `ValueError`) is modelled with `Option`/`Except`.
* Timestamps are integer milliseconds since the Unix epoch (UTC); pandas'
  `to_datetime(_, unit='s') + to_timedelta(_, unit='ms')` is `time*1000 + tick`.
-/

/-- One raw 30-byte record of the binary stream, as described by the numpy
dtype in `Read_Lemi_Data._from_binary`:
`time` u4, `tick` u2, `Bx By Bz Ex Ey` i4, `sync` i1, `stage` u1, `CRC` i2,
little-endian, packed (no padding). -/
structure RawRecord where
  time : ℕ
  tick : ℕ
  Bx : ℤ
  By : ℤ
  Bz : ℤ
  Ex : ℤ
  Ey : ℤ
  sync : ℤ
  stage : ℕ
  CRC : ℤ
deriving DecidableEq, Repr

/-- Value of a little-endian byte list. -/
def leVal (bs : List ℕ) : ℕ := bs.foldr (fun b a => b + 256 * a) 0

/-- Two's-complement reading of an unsigned value `u` at width `bits`. -/
def toSigned (bits : ℕ) (u : ℕ) : ℤ :=
  if u < 2 ^ (bits - 1) then (u : ℤ) else (u : ℤ) - 2 ^ bits

/-- Decode one 30-byte record at the field offsets fixed by the numpy dtype. -/
def decodeRecord (bs : List ℕ) : RawRecord where
  time := leVal (bs.take 4)
  tick := leVal ((bs.drop 4).take 2)
  Bx := toSigned 32 (leVal ((bs.drop 6).take 4))
  By := toSigned 32 (leVal ((bs.drop 10).take 4))
  Bz := toSigned 32 (leVal ((bs.drop 14).take 4))
  Ex := toSigned 32 (leVal ((bs.drop 18).take 4))
  Ey := toSigned 32 (leVal ((bs.drop 22).take 4))
  sync := toSigned 8 (leVal ((bs.drop 26).take 1))
  stage := leVal ((bs.drop 27).take 1)
  CRC := toSigned 16 (leVal ((bs.drop 28).take 2))

/-- Little-endian encoding of a `Nat` into `w` bytes. -/
def encBytes : ℕ → ℕ → List ℕ
  | 0, _ => []
  | w + 1, n => n % 256 :: encBytes w (n / 256)

/-- Little-endian two's-complement encoding of an `Int` into `w` bytes. -/
def encSigned (w : ℕ) (i : ℤ) : List ℕ := encBytes w (i % (2 ^ (8 * w))).toNat

/-- Re-encoding of a record into its 30 bytes (the inverse direction of the
lossless-decode property: the source only decodes; this encoder spells out
the byte layout the dtype prescribes). -/
def encodeRecord (r : RawRecord) : List ℕ :=
  encBytes 4 r.time ++ encBytes 2 r.tick ++
  encSigned 4 r.Bx ++ encSigned 4 r.By ++ encSigned 4 r.Bz ++
  encSigned 4 r.Ex ++ encSigned 4 r.Ey ++
  encSigned 1 r.sync ++ encBytes 1 r.stage ++ encSigned 2 r.CRC

/-- Fuelled worker for `decodeRecords` (structural recursion so that concrete
inputs evaluate in the kernel). -/
def decodeRecordsAux : ℕ → List ℕ → List RawRecord
  | 0, _ => []
  | n + 1, bs =>
    if 30 ≤ bs.length then decodeRecord (bs.take 30) :: decodeRecordsAux n (bs.drop 30)
    else []

/-- Decode a byte stream into consecutive 30-byte records, silently discarding
a trailing partial record — the behaviour of `np.fromfile` with the 30-byte
dtype. -/
def decodeRecords (bs : List ℕ) : List RawRecord := decodeRecordsAux bs.length bs

/-- One calibrated sample: the row of the DataFrame built by `_from_binary`
after the time conversion and the five channel calibrations (`tick`, `sync`,
`stage`, `CRC` stay as columns at this stage). -/
structure CalibratedSample where
  timestampMs : ℤ
  Bx : ℚ
  By : ℚ
  Bz : ℚ
  Ex : ℚ
  Ey : ℚ
  tick : ℕ
  sync : ℤ
  stage : ℕ
  CRC : ℤ
deriving DecidableEq, Repr

/-- Calibration coefficients: a Python dict `str → float`, as an association
list in insertion order. -/
abbrev Coeffs := List (String × ℚ)

/-- Dict lookup with Python semantics (a later duplicate key overwrites an
earlier one), returning `none` where Python raises `KeyError`. -/
def coeffGet (c : Coeffs) (k : String) : Option ℚ := c.reverse.lookup k

/-- Look up the ten coefficients `_from_binary` requires, in source order;
`none` models the `KeyError` that aborts the whole file. -/
def getAll10 (c : Coeffs) :
    Option (ℚ × ℚ × ℚ × ℚ × ℚ × ℚ × ℚ × ℚ × ℚ × ℚ) := do
  let kmx ← coeffGet c "Kmx"
  let ax ← coeffGet c "Ax"
  let kmy ← coeffGet c "Kmy"
  let ay ← coeffGet c "Ay"
  let kmz ← coeffGet c "Kmz"
  let az ← coeffGet c "Az"
  let ke1 ← coeffGet c "Ke1"
  let ae1 ← coeffGet c "Ae1"
  let ke2 ← coeffGet c "Ke2"
  let ae2 ← coeffGet c "Ae2"
  pure (kmx, ax, kmy, ay, kmz, az, ke1, ae1, ke2, ae2)

/-- Apply the per-channel linear calibration and the time reconstruction of
`_from_binary` lines 212–219 to one record. -/
def calibrateRecord (ks : ℚ × ℚ × ℚ × ℚ × ℚ × ℚ × ℚ × ℚ × ℚ × ℚ)
    (r : RawRecord) : CalibratedSample :=
  match ks with
  | (kmx, ax, kmy, ay, kmz, az, ke1, ae1, ke2, ae2) =>
    { timestampMs := (r.time : ℤ) * 1000 + (r.tick : ℤ)
      Bx := (r.Bx : ℚ) * kmx + ax
      By := (r.By : ℚ) * kmy + ay
      Bz := (r.Bz : ℚ) * kmz + az
      Ex := (r.Ex : ℚ) * ke1 + ae1
      Ey := (r.Ey : ℚ) * ke2 + ae2
      tick := r.tick
      sync := r.sync
      stage := r.stage
      CRC := r.CRC }

/-- Model of `Read_Lemi_Data._from_binary`: the whole file's bytes (`none` when the
file cannot be read), skip the 1024-byte header, decode records, convert
time, calibrate the five channels. Any failure — unreadable source or a
missing required coefficient — yields `none` (the `except` branch returning
`None`). -/
def fromBinary (bytes : Option (List ℕ)) (c : Coeffs) :
    Option (List CalibratedSample) :=
  match bytes with
  | none => none
  | some bs =>
    match getAll10 c with
    | none => none
    | some ks => some ((decodeRecords (bs.drop 1024)).map (calibrateRecord ks))

/-- Model of `_from_binary` together with the `self.data` attribute: first component is
the returned value, second the attribute after the call (`self.data = df` runs
only after all calibrations and `set_index` succeed; the `except` branch
leaves the attribute untouched). -/
def fromBinaryStep (bytes : Option (List ℕ)) (c : Coeffs)
    (st : Option (List CalibratedSample)) :
    Option (List CalibratedSample) × Option (List CalibratedSample) :=
  match fromBinary bytes c with
  | none => (none, st)
  | some df => (some df, some df)

/-! ### Header parsing (`Read_Lemi_Header`)

String manipulation is modelled on `List Char` so that concrete inputs
evaluate structurally in the kernel. Python's `str.split(sep)` keeps empty
pieces and always returns at least one piece; `str.split()` splits on
whitespace and drops empty pieces; `int()`/`float()` strip surrounding
whitespace and fail on malformed input. -/

/-- Split a character list on a separator, keeping empty pieces
(Python `s.split(c)`). -/
def splitChar (c : Char) : List Char → List (List Char)
  | [] => [[]]
  | a :: rest =>
    let r := splitChar c rest
    if a = c then [] :: r
    else
      match r with
      | [] => [[a]]
      | x :: xs => (a :: x) :: xs

/-- Whitespace split dropping empty pieces (Python `s.split()` restricted to
spaces, which is all the header lines use). -/
def words (l : List Char) : List (List Char) :=
  (splitChar ' ' l).filter (· ≠ [])

/-- Strip surrounding whitespace (Python `str.strip()` / the stripping done
by `int()` and `float()`). -/
def trimChars (l : List Char) : List Char :=
  ((l.dropWhile Char.isWhitespace).reverse.dropWhile Char.isWhitespace).reverse

/-- Numeric value of a digit list (most significant first). -/
def digitsToNat (l : List Char) : ℕ :=
  l.foldl (fun a c => 10 * a + (c.toNat - 48)) 0

/-- Parse a non-empty all-digit list. -/
def parseDigits (l : List Char) : Option ℕ :=
  if l ≠ [] ∧ l.all Char.isDigit then some (digitsToNat l) else none

/-- Python `int(s)`: strip, optional sign, digits. -/
def parseInt (l : List Char) : Option ℤ :=
  match trimChars l with
  | '-' :: rest => (parseDigits rest).map (fun n => -(n : ℤ))
  | '+' :: rest => (parseDigits rest).map (fun n => (n : ℤ))
  | t => (parseDigits t).map (fun n => (n : ℤ))

/-- Unsigned decimal literal `ddd`, `ddd.ddd`, `ddd.` or `.ddd` as a `ℚ`. -/
def parseUnsignedDec (l : List Char) : Option ℚ :=
  match splitChar '.' l with
  | [i] => (parseDigits i).map (fun n => (n : ℚ))
  | [i, f] =>
    if (i ++ f) ≠ [] ∧ (i ++ f).all Char.isDigit then
      some ((digitsToNat i : ℚ) + (digitsToNat f : ℚ) / (10 : ℚ) ^ f.length)
    else none
  | _ => none

/-- Python `float(s)` on the plain decimal literals the headers contain:
strip, optional sign, decimal digits with at most one point. -/
def parseFloat (l : List Char) : Option ℚ :=
  match trimChars l with
  | '-' :: rest => (parseUnsignedDec rest).map Neg.neg
  | '+' :: rest => parseUnsignedDec rest
  | t => parseUnsignedDec t

/-- Indexing `header[i]` as the character list of the line; `none` models the
`IndexError` when the header has too few lines. -/
def getLine (header : List String) (i : ℕ) : Option (List Char) :=
  (header.get? i).map String.data

/-- Deployment timestamp fields as parsed by
`pd.to_datetime(_, format="%Y/%m/%d %H:%M:%S")`. -/
structure DateTime6 where
  year : ℕ
  month : ℕ
  day : ℕ
  hour : ℕ
  minute : ℕ
  second : ℕ
deriving DecidableEq, Repr

/-- Parse a `YYYY/MM/DD` token; models the validation `pd.to_datetime`
performs on the `%Y/%m/%d` format (digit fields, month and day in range). -/
def parseDate (l : List Char) : Option (ℕ × ℕ × ℕ) :=
  match splitChar '/' l with
  | [y, mo, d] => do
    let yv ← parseDigits y
    let mov ← parseDigits mo
    let dv ← parseDigits d
    if 1 ≤ mov ∧ mov ≤ 12 ∧ 1 ≤ dv ∧ dv ≤ 31 then pure (yv, mov, dv) else none
  | _ => none

/-- Parse an `HH:MM:SS` token; models the validation `pd.to_datetime`
performs on the `%H:%M:%S` format. -/
def parseTime (l : List Char) : Option (ℕ × ℕ × ℕ) :=
  match splitChar ':' l with
  | [h, mi, s] => do
    let hv ← parseDigits h
    let miv ← parseDigits mi
    let sv ← parseDigits s
    if hv ≤ 23 ∧ miv ≤ 59 ∧ sv ≤ 59 then pure (hv, miv, sv) else none
  | _ => none

/-- Model of `_extract_instrument_number`: outer `none` is an uncaught parse error;
`some none` is the legitimate no-`#` case. -/
def extractInstrumentNumber (header : List String) : Option (Option ℤ) :=
  match getLine header 0 with
  | none => none
  | some l =>
    if l.contains '#' then
      ((parseInt ((splitChar '#' l).getLastD [])).map some)
    else some none

/-- Model of `_extract_deployment_time`: `header[4].split()[-1]` and
`header[5].split()[-1]` combined through `pd.to_datetime`. -/
def extractDeploymentTime (header : List String) : Option DateTime6 := do
  let l4 ← getLine header 4
  let l5 ← getLine header 5
  let dTok ← (words l4).getLast?
  let tTok ← (words l5).getLast?
  let (y, mo, d) ← parseDate dTok
  let (h, mi, s) ← parseTime tTok
  pure ⟨y, mo, d, h, mi, s⟩

/-- One line of the coefficient block: skipped (`some none`) when it has no
`=`, otherwise `name = float` with the name stripped of whitespace and
leading `%`; a float parse failure fails the whole extraction. -/
def parseCoeffLine (l : List Char) : Option (Option (String × ℚ)) :=
  if l.contains '=' then
    match splitChar '=' l with
    | _ :: [] => none
    | p0 :: p1 :: _ =>
      (parseFloat p1).map (fun v =>
        some (⟨(trimChars p0).dropWhile (· = '%')⟩, v))
    | [] => none
  else some none

/-- Model of `_extract_coefficients`: the dict comprehension over `header[13:]` — all
lines parsed, or the whole extraction fails. -/
def extractCoefficients (header : List String) : Option Coeffs :=
  go (header.drop 13)
where
  go : List String → Option Coeffs
    | [] => some []
    | line :: rest => do
      let kv ← parseCoeffLine line.data
      let tail ← go rest
      pure (match kv with | none => tail | some p => p :: tail)

/-- Exactly-two unpacking `a, b = l` (`ValueError` otherwise). -/
def twoParts (l : List (List Char)) : Option (List Char × List Char) :=
  match l with
  | [a, b] => some (a, b)
  | _ => none

/-- Latitude of one `DDMM.mmmm,H` field, per line 119 of the source:
`(int(lat[:2]) + float(lat[2:]) / 60) * (-1 if lat_dir.strip() == 'S' else 1)`. -/
def parseLatitude (field : List Char) : Option ℚ := do
  let (s, dir) ← twoParts (splitChar ',' field)
  let d ← parseInt (s.take 2)
  let m ← parseFloat (s.drop 2)
  pure (((d : ℚ) + m / 60) * (if trimChars dir = ['S'] then -1 else 1))

/-- Longitude of one `DDDMM.mmmm,H` field, per line 120 of the source. -/
def parseLongitude (field : List Char) : Option ℚ := do
  let (s, dir) ← twoParts (splitChar ',' field)
  let d ← parseInt (s.take 3)
  let m ← parseFloat (s.drop 3)
  pure (((d : ℚ) + m / 60) * (if trimChars dir = ['W'] then -1 else 1))

/-- Model of `_extract_coordinates`: latitude from `header[9]`, longitude from
`header[10]`, elevation from `header[11]`. -/
def extractCoordinates (header : List String) : Option (ℚ × ℚ × ℚ) := do
  let l9 ← getLine header 9
  let l10 ← getLine header 10
  let l11 ← getLine header 11
  let latField ← (words l9).getLast?
  let lonField ← (words l10).getLast?
  let lat ← parseLatitude latField
  let lon ← parseLongitude lonField
  let elevTok ← (words ((splitChar ',' l11).headD [])).getLast?
  let elev ← parseFloat elevTok
  pure (lat, lon, elev)

/-- Metadata dict returned by `Read_Lemi_Header.read` on success (the derived
`geo_site` display string is omitted: it is formatting of `latitude` and
`longitude`, with no independent content). -/
structure HeaderMetadata where
  instrument_number : Option ℤ
  deployment_time : DateTime6
  latitude : ℚ
  longitude : ℚ
  elevation : ℚ
  coefficients : Coeffs
deriving DecidableEq, Repr

/-- Model of `Read_Lemi_Header.read` on the decoded header lines: `{}` (`none`) when
the header could not be read (empty line list), or when any extractor fails;
otherwise the full metadata. -/
def headerRead (header : List String) : Option HeaderMetadata :=
  if header.isEmpty then none
  else do
    let inst ← extractInstrumentNumber header
    let dt ← extractDeploymentTime header
    let coeffs ← extractCoefficients header
    let (lat, lon, elev) ← extractCoordinates header
    pure ⟨inst, dt, lat, lon, elev, coeffs⟩

/-! ### Site and batch processing (`Process_LEMI_423.py`) -/

/-- One output row of the per-site table after
`df.drop(columns=["time","Bz","tick","sync","stage","CRC"], errors='ignore')`
and `df["site_id"] = site_id`. -/
structure Row where
  timestampMs : ℤ
  Bx : ℚ
  By : ℚ
  Ex : ℚ
  Ey : ℚ
  siteId : ℕ
deriving DecidableEq, Repr

/-- Drop the unused columns and tag with the site id. -/
def rowsOf (siteId : ℕ) (samples : List CalibratedSample) : List Row :=
  samples.map (fun s => ⟨s.timestampMs, s.Bx, s.By, s.Ex, s.Ey, siteId⟩)

/-- The per-site summary dict built at the end of `process_site` (`Lat`/`Lon`
are kept as the numbers being formatted). -/
structure SiteSummary where
  siteId : ℕ
  siteName : String
  rxNo : Option ℤ
  lat : ℚ
  lon : ℚ
  alt : ℚ
  startTime : Option ℤ
  finishTime : Option ℤ
  sampleRate : Option ℕ
  exDipole : ℚ
  exAz : ℚ
  eyDipole : ℚ
  eyAz : ℚ
deriving DecidableEq, Repr

/-- One binary file as the site job sees it: the decoded header lines (empty
when `_read_header` fails) and the raw file bytes (`none` when the data read
fails). -/
structure FileInput where
  header : List String
  bytes : Option (List ℕ)

/-- One site as `process_site` sees it: folder existence, directory listing,
file contents by name, and the pass-through columns of the metadata row. -/
structure SiteInput where
  folderExists : Bool
  listing : List String
  file : String → FileInput
  siteName : String
  exDipole : ℚ
  exAz : ℚ
  eyDipole : ℚ
  eyAz : ℚ

/-- Sort key of line 115: `int(os.path.basename(x).split('.')[0])` (total
here; a non-numeric prefix defaults to 0 — Python would raise instead, which
no claim under study depends on). -/
def fileKey (s : String) : ℤ :=
  (parseInt ((splitChar '.' s.data).headD [])).getD 0

/-- Ordering used to sort a site's binary files. -/
def fileLE (a b : String) : Prop := fileKey a ≤ fileKey b

instance : DecidableRel fileLE := fun _ _ => Int.decLe _ _

instance : IsTotal String fileLE := ⟨fun a b => Int.le_total (fileKey a) (fileKey b)⟩

instance : IsTrans String fileLE := ⟨fun _ _ _ h1 h2 => le_trans h1 h2⟩

/-- Filename filter of line 114: `f.endswith(".B423")`. -/
def isB423 (s : String) : Bool := ".B423".data.isSuffixOf s.data

/-- Lines 113–116: select the `.B423` files of the listing and sort them
ascending by the integer prefix of the filename (Python `sorted` is a stable
sort; so is insertion sort). -/
def binaryFiles (listing : List String) : List String :=
  List.insertionSort fileLE (listing.filter isB423)

/-- Loop state of `process_site`'s per-file loop: the accumulated tables, the
running `start_time`/`finish_time`/`sample_rate`, the value of the
`header_info` variable after the iteration, and the trace of files handled
(the per-file log line of line 128). `none` for `start_time`/`finish_time`
covers both Python `None` and `NaT`, which are the two falsy cases. -/
structure LoopState where
  trace : List String
  allData : List (List Row)
  start : Option ℤ
  finish : Option ℤ
  rate : Option ℕ
  lastHeader : Option HeaderMetadata

/-- Initial loop state. -/
def initLoop : LoopState := ⟨[], [], none, none, none, none⟩

/-- Timestamps of a file's calibrated samples. -/
def tsOf (samples : List CalibratedSample) : List ℤ :=
  samples.map (fun s => s.timestampMs)

/-- Line 145: `len(df[df.index < df.index.min() + pd.Timedelta(seconds=1)])`
(0 on an empty index, whose min is `NaT` and compares false). -/
def countFirstSecond (ts : List ℤ) : ℕ :=
  match ts.min? with
  | none => 0
  | some m => (ts.filter (fun t => t < m + 1000)).length

/-- Body of the `for binary_file in binary_files` loop (lines 127–156). Every
failure path — empty header metadata (`KeyError` on `"coefficients"`), or
`_from_binary` returning `None` (`AttributeError` on `df.index`) — is caught
by the `except` and skips to the next file; `header_info` is reassigned
before any of those failure points. -/
def stepFile (siteId : ℕ) (getFile : String → FileInput)
    (st : LoopState) (name : String) : LoopState :=
  let f := getFile name
  let st1 := { st with trace := st.trace ++ [name] }
  match headerRead f.header with
  | none => { st1 with lastHeader := none }
  | some m =>
    let st2 := { st1 with lastHeader := some m }
    match fromBinary f.bytes m.coefficients with
    | none => st2
    | some samples =>
      let ts := tsOf samples
      { st2 with
        start := st2.start <|> ts.min?
        finish := ts.max?
        rate := st2.rate <|> some (countFirstSecond ts)
        allData := st2.allData ++ [rowsOf siteId samples] }

/-- Loop state after processing all of a site's sorted binary files. -/
def siteState (siteId : ℕ) (s : SiteInput) : LoopState :=
  (binaryFiles s.listing).foldl (stepFile siteId s.file) initLoop

/-- Model of `process_site`. There `.ok (none, none)` is the skip-this-site return for a
missing folder or an empty file selection; `.error ()` models the uncaught
`KeyError` raised while building the summary dict when `header_info` — the
header of the *last* file of the loop — is empty. -/
def processSite (siteId : ℕ) (s : SiteInput) :
    Except Unit (Option (List Row) × Option SiteSummary) :=
  if s.folderExists = false then .ok (none, none)
  else
    let files := binaryFiles s.listing
    if files.isEmpty then .ok (none, none)
    else
      let st := siteState siteId s
      match st.lastHeader with
      | none => .error ()
      | some m =>
        .ok
          (if st.allData.isEmpty then none else some st.allData.flatten,
           some
             { siteId := siteId
               siteName := s.siteName
               rxNo := m.instrument_number
               lat := m.latitude
               lon := m.longitude
               alt := m.elevation
               startTime := st.start
               finishTime := st.finish
               sampleRate := st.rate
               exDipole := s.exDipole
               exAz := s.exAz
               eyDipole := s.eyDipole
               eyAz := s.eyAz })

/-- Table component of a site job's outcome as the orchestrator's
`future.result()` handler sees it (`none` both for an exception and for a
`None` table). -/
def tableOf (r : Except Unit (Option (List Row) × Option SiteSummary)) :
    Option (List Row) :=
  match r with
  | .error _ => none
  | .ok (t, _) => t

/-- Result-collection loop of `process_all_sites` (lines 210–217): an
exception from a job is logged and skipped; a `None` table contributes
nothing; otherwise both the table and the job's metadata are appended. -/
def collectSites
    (results : List (Except Unit (Option (List Row) × Option SiteSummary))) :
    List (List Row) × List (Option SiteSummary) :=
  results.foldl
    (fun acc r =>
      match r with
      | .error _ => acc
      | .ok (none, _) => acc
      | .ok (some df, md) => (acc.1 ++ [df], acc.2 ++ [md]))
    ([], [])

/-- Model of `process_all_sites` after the metadata CSV has been loaded: one
`process_site` job per row, with the row's position as its site id; returns
`pd.concat(all_data) if all_data else None` and the metadata list. -/
def processAllSites (sites : List SiteInput) :
    Option (List Row) × List (Option SiteSummary) :=
  let res := sites.enum.map (fun p => processSite p.1 p.2)
  let c := collectSites res
  (if c.1.isEmpty then none else some c.1.flatten, c.2)

/-- Guard of `__main__` (line 265): `log_summary` runs only when
`time_series_data is not None and site_metadata is not None`; after a loaded
CSV the metadata table is never `None`, so the guard is the first conjunct. -/
def mainRunsSummary (out : Option (List Row) × List (Option SiteSummary)) :
    Bool :=
  out.1.isSome

/-! ### Concrete fixtures used by witnesses and counterexamples -/

/-- Header lines of a well-formed file: instrument `# 123`, deployment
`2024/07/03 00:00:00`, latitude `3430.0000,S`, longitude `13830.0000,E`,
elevation `100.0`, and the ten required coefficients. -/
def goodHeader : List String :=
  ["LEMI423 # 123", "", "", "", "d 2024/07/03", "t 00:00:00", "", "", "",
   "c 3430.0000,S", "c 13830.0000,E", "a 100.0,m", "", "coefficients",
   "%Kmx = 2.0", "%Kmy = 2.0", "%Kmz = 2.0", "%Ke1 = 2.0", "%Ke2 = 2.0",
   "%Ax = 1.0", "%Ay = 1.0", "%Az = 1.0", "%Ae1 = 1.0", "%Ae2 = 1.0"]

/-- A readable data file with no record payload (a 0-byte body decodes to an
empty record stream, exactly as `np.fromfile` yields an empty array). -/
def goodFile : FileInput := ⟨goodHeader, some []⟩

/-- A file whose header read fails (`_read_header` returned `[]`) and whose
data read fails too. -/
def badFile : FileInput := ⟨[], none⟩

/-- A site with one well-formed file. -/
def goodSite : SiteInput :=
  ⟨true, ["100.B423"], fun _ => goodFile, "S01", 50, 0, 50, 90⟩

/-- A site whose folder is missing. -/
def missingSite : SiteInput :=
  ⟨false, [], fun _ => badFile, "S02", 50, 0, 50, 90⟩

/-- A site with one file whose header is unreadable. -/
def badHeaderSite : SiteInput :=
  ⟨true, ["100.B423"], fun _ => badFile, "S03", 50, 0, 50, 90⟩


/-- Per-file outcome of the loop body: `some` timestamps when both the header
read and the data read succeed, `none` when the file is skipped. -/
def fileSamples (f : FileInput) : Option (List ℤ) :=
  match headerRead f.header with
  | none => none
  | some m => (fromBinary f.bytes m.coefficients).map tsOf

/-- Equality on site-job outcomes is decidable (used to state concrete
evaluations). -/
instance exceptDecEq {ε α : Type} [DecidableEq ε] [DecidableEq α] :
    DecidableEq (Except ε α) :=
  fun a b =>
    match a, b with
    | .error e, .error f =>
      if h : e = f then isTrue (by rw [h]) else isFalse (by simp [h])
    | .ok x, .ok y =>
      if h : x = y then isTrue (by rw [h]) else isFalse (by simp [h])
    | .error _, .ok _ => isFalse (by simp)
    | .ok _, .error _ => isFalse (by simp)

/-! ### Little-endian round-trip lemmas -/

/-- Byte lists with in-range bytes have in-range little-endian values. -/
theorem leVal_lt (bs : List ℕ) (h : ∀ b ∈ bs, b < 256) :
    leVal bs < 256 ^ bs.length := by
  induction bs with
  | nil => simp [leVal]
  | cons b t ih =>
    have hb : b < 256 := h b (List.mem_cons_self b t)
    have ht : leVal t < 256 ^ t.length := ih (fun x hx => h x (List.mem_cons_of_mem b hx))
    have hstep : leVal (b :: t) = b + 256 * leVal t := rfl
    calc leVal (b :: t) = b + 256 * leVal t := hstep
      _ < 256 * (leVal t + 1) := by omega
      _ ≤ 256 * 256 ^ t.length := by
          exact Nat.mul_le_mul_left 256 (by omega)
      _ = 256 ^ (b :: t).length := by
          rw [List.length_cons, pow_succ]; ring

/-- Little-endian encoding inverts `leVal` at the list's own length. -/
theorem encBytes_leVal (bs : List ℕ) (h : ∀ b ∈ bs, b < 256) :
    encBytes bs.length (leVal bs) = bs := by
  induction bs with
  | nil => rfl
  | cons b t ih =>
    have hb : b < 256 := h b (List.mem_cons_self b t)
    have hstep : leVal (b :: t) = b + 256 * leVal t := rfl
    have hmod : (b + 256 * leVal t) % 256 = b := by omega
    have hdiv : (b + 256 * leVal t) / 256 = leVal t := by omega
    calc encBytes (b :: t).length (leVal (b :: t))
        = (b + 256 * leVal t) % 256 ::
            encBytes t.length ((b + 256 * leVal t) / 256) := by
          rw [hstep, List.length_cons]; rfl
      _ = b :: encBytes t.length (leVal t) := by rw [hmod, hdiv]
      _ = b :: t := by rw [ih (fun x hx => h x (List.mem_cons_of_mem b hx))]

/-- Two's-complement encoding inverts the signed decode at the list's own
length. -/
theorem encSigned_toSigned (bs : List ℕ) (h : ∀ b ∈ bs, b < 256) :
    encSigned bs.length (toSigned (8 * bs.length) (leVal bs)) = bs := by
  have hlt : leVal bs < 2 ^ (8 * bs.length) := by
    have := leVal_lt bs h
    calc leVal bs < 256 ^ bs.length := this
      _ = 2 ^ (8 * bs.length) := by
          rw [show (256 : ℕ) = 2 ^ 8 by norm_num, ← pow_mul]
  have hmod : (toSigned (8 * bs.length) (leVal bs)) % ((2 : ℤ) ^ (8 * bs.length))
      = (leVal bs : ℤ) := by
    unfold toSigned
    have hlt' : (leVal bs : ℤ) < 2 ^ (8 * bs.length) := by exact_mod_cast hlt
    split
    · exact Int.emod_eq_of_lt (Int.natCast_nonneg _) hlt'
    · have hrw : (leVal bs : ℤ) - 2 ^ (8 * bs.length) =
          (leVal bs : ℤ) + 2 ^ (8 * bs.length) * (-1) := by ring
      rw [hrw, Int.add_mul_emod_self_left]
      exact Int.emod_eq_of_lt (Int.natCast_nonneg _) hlt'
  unfold encSigned
  rw [hmod]
  simp only [Int.toNat_natCast]
  exact encBytes_leVal bs h

/-- Version of `encBytes` specialised to a slice of known length. -/
theorem encBytes_slice (w : ℕ) (l : List ℕ) (hw : l.length = w)
    (h : ∀ b ∈ l, b < 256) : encBytes w (leVal l) = l := by
  subst hw; exact encBytes_leVal l h

/-- Version of `encSigned` specialised to a slice of known length and bit width. -/
theorem encSigned_slice (w bits : ℕ) (l : List ℕ) (hw : l.length = w)
    (hbits : bits = 8 * w) (h : ∀ b ∈ l, b < 256) :
    encSigned w (toSigned bits (leVal l)) = l := by
  subst hw; subst hbits; exact encSigned_toSigned l h

/-- Record count of a fuelled decode. -/
theorem decodeRecordsAux_length (n : ℕ) :
    ∀ bs : List ℕ, bs.length ≤ n → (decodeRecordsAux n bs).length = bs.length / 30 := by
  induction n with
  | zero =>
    intro bs h
    have : bs = [] := List.eq_nil_of_length_eq_zero (Nat.le_zero.mp h)
    subst this; rfl
  | succ n ih =>
    intro bs h
    unfold decodeRecordsAux
    split
    · rename_i h30
      have hlen : (bs.drop 30).length ≤ n := by
        rw [List.length_drop]; omega
      rw [List.length_cons, ih (bs.drop 30) hlen, List.length_drop]
      omega
    · rename_i h30
      simp only [List.length_nil]
      omega

/-- Record count of the full decode. -/
theorem decodeRecords_length (bs : List ℕ) :
    (decodeRecords bs).length = bs.length / 30 :=
  decodeRecordsAux_length bs.length bs le_rfl

/-- Re-encoding a decoded 30-byte record reproduces the bytes. -/
theorem encode_decode_roundtrip (bs : List ℕ) (h30 : bs.length = 30)
    (hb : ∀ b ∈ bs, b < 256) : encodeRecord (decodeRecord bs) = bs := by
  have hmem : ∀ (m k : ℕ), ∀ b ∈ (bs.drop m).take k, b < 256 := by
    intro m k b hbmem
    exact hb b (List.drop_subset m bs (List.take_subset k _ hbmem))
  have hmem0 : ∀ b ∈ bs.take 4, b < 256 := fun b hbm => hb b (List.take_subset 4 bs hbm)
  have hlen : ∀ (m k : ℕ), m + k ≤ 30 → ((bs.drop m).take k).length = k := by
    intro m k hmk
    rw [List.length_take, List.length_drop, h30]
    omega
  have e0 : encBytes 4 (leVal (bs.take 4)) = bs.take 4 :=
    encBytes_slice 4 _ (by rw [List.length_take, h30]; omega) hmem0
  have e4 : encBytes 2 (leVal ((bs.drop 4).take 2)) = (bs.drop 4).take 2 :=
    encBytes_slice 2 _ (hlen 4 2 (by omega)) (hmem 4 2)
  have e6 : encSigned 4 (toSigned 32 (leVal ((bs.drop 6).take 4))) = (bs.drop 6).take 4 :=
    encSigned_slice 4 32 _ (hlen 6 4 (by omega)) (by norm_num) (hmem 6 4)
  have e10 : encSigned 4 (toSigned 32 (leVal ((bs.drop 10).take 4))) = (bs.drop 10).take 4 :=
    encSigned_slice 4 32 _ (hlen 10 4 (by omega)) (by norm_num) (hmem 10 4)
  have e14 : encSigned 4 (toSigned 32 (leVal ((bs.drop 14).take 4))) = (bs.drop 14).take 4 :=
    encSigned_slice 4 32 _ (hlen 14 4 (by omega)) (by norm_num) (hmem 14 4)
  have e18 : encSigned 4 (toSigned 32 (leVal ((bs.drop 18).take 4))) = (bs.drop 18).take 4 :=
    encSigned_slice 4 32 _ (hlen 18 4 (by omega)) (by norm_num) (hmem 18 4)
  have e22 : encSigned 4 (toSigned 32 (leVal ((bs.drop 22).take 4))) = (bs.drop 22).take 4 :=
    encSigned_slice 4 32 _ (hlen 22 4 (by omega)) (by norm_num) (hmem 22 4)
  have e26 : encSigned 1 (toSigned 8 (leVal ((bs.drop 26).take 1))) = (bs.drop 26).take 1 :=
    encSigned_slice 1 8 _ (hlen 26 1 (by omega)) (by norm_num) (hmem 26 1)
  have e27 : encBytes 1 (leVal ((bs.drop 27).take 1)) = (bs.drop 27).take 1 :=
    encBytes_slice 1 _ (hlen 27 1 (by omega)) (hmem 27 1)
  have e28 : encSigned 2 (toSigned 16 (leVal ((bs.drop 28).take 2))) = (bs.drop 28).take 2 :=
    encSigned_slice 2 16 _ (hlen 28 2 (by omega)) (by norm_num) (hmem 28 2)
  have a : ∀ (m k : ℕ), (bs.drop m).take k ++ bs.drop (m + k) = bs.drop m := by
    intro m k
    have h1 := List.take_append_drop k (bs.drop m)
    rw [List.drop_drop] at h1
    exact h1
  have t28 : (bs.drop 28).take 2 = bs.drop 28 := by
    apply List.take_of_length_le
    rw [List.length_drop, h30]
  have a27 : (bs.drop 27).take 1 ++ bs.drop 28 = bs.drop 27 := by
    have h1 := a 27 1; norm_num at h1; exact h1
  have a26 : (bs.drop 26).take 1 ++ bs.drop 27 = bs.drop 26 := by
    have h1 := a 26 1; norm_num at h1; exact h1
  have a22 : (bs.drop 22).take 4 ++ bs.drop 26 = bs.drop 22 := by
    have h1 := a 22 4; norm_num at h1; exact h1
  have a18 : (bs.drop 18).take 4 ++ bs.drop 22 = bs.drop 18 := by
    have h1 := a 18 4; norm_num at h1; exact h1
  have a14 : (bs.drop 14).take 4 ++ bs.drop 18 = bs.drop 14 := by
    have h1 := a 14 4; norm_num at h1; exact h1
  have a10 : (bs.drop 10).take 4 ++ bs.drop 14 = bs.drop 10 := by
    have h1 := a 10 4; norm_num at h1; exact h1
  have a6 : (bs.drop 6).take 4 ++ bs.drop 10 = bs.drop 6 := by
    have h1 := a 6 4; norm_num at h1; exact h1
  have a4 : (bs.drop 4).take 2 ++ bs.drop 6 = bs.drop 4 := by
    have h1 := a 4 2; norm_num at h1; exact h1
  show encBytes 4 (decodeRecord bs).time ++ encBytes 2 (decodeRecord bs).tick ++
      encSigned 4 (decodeRecord bs).Bx ++ encSigned 4 (decodeRecord bs).By ++
      encSigned 4 (decodeRecord bs).Bz ++ encSigned 4 (decodeRecord bs).Ex ++
      encSigned 4 (decodeRecord bs).Ey ++ encSigned 1 (decodeRecord bs).sync ++
      encBytes 1 (decodeRecord bs).stage ++ encSigned 2 (decodeRecord bs).CRC = bs
  simp only [decodeRecord]
  rw [e0, e4, e6, e10, e14, e18, e22, e26, e27, e28]
  simp only [List.append_assoc]
  rw [t28, a27, a26, a22, a18, a14, a10, a6, a4]
  exact List.take_append_drop 4 bs

/-- C2. Decoding a 30-byte record into the `RawRecord` fields (`time` u32,
`tick` u16, `Bx`/`By`/`Bz`/`Ex`/`Ey` i32, `sync` i8, `stage` u8, `CRC` i16,
little-endian, packed) and re-encoding reproduces the identical 30 bytes;
and the number of records decoded from a file is
`(file size − 1024) / 30` (natural subtraction and floor division: the
trailing partial record is silently discarded), also as seen through
`_from_binary`. -/
theorem record_roundtrip_and_count_c2 (bs file : List ℕ) (h30 : bs.length = 30)
    (hb : ∀ b ∈ bs, b < 256) :
    encodeRecord (decodeRecord bs) = bs ∧
    (decodeRecords (file.drop 1024)).length = (file.length - 1024) / 30 ∧
    (∀ c samples, fromBinary (some file) c = some samples →
      samples.length = (file.length - 1024) / 30) := by
  refine ⟨encode_decode_roundtrip bs h30 hb, ?_, ?_⟩
  · rw [decodeRecords_length, List.length_drop]
  · intro c samples hsome
    unfold fromBinary at hsome
    cases hks : getAll10 c with
    | none => rw [hks] at hsome; simp at hsome
    | some ks =>
      rw [hks] at hsome
      have heq : (decodeRecords (file.drop 1024)).map (calibrateRecord ks) = samples :=
        Option.some_injective _ hsome
      rw [← heq, List.length_map, decodeRecords_length, List.length_drop]

/-- C1. With all ten required coefficients present in the mapping, the
calibrator computes each channel as `raw * scale + offset` with the pairs
`(Kmx,Ax)`, `(Kmy,Ay)`, `(Kmz,Az)`, `(Ke1,Ae1)`, `(Ke2,Ae2)` for
`Bx,By,Bz,Ex,Ey`, and the sample timestamp is the record's `time` in seconds
(UTC) plus `tick` milliseconds; `_from_binary` applies exactly this map to
every decoded record. -/
theorem calibration_linear_c1 (c : Coeffs) (r : RawRecord)
    (kmx ax kmy ay kmz az ke1 ae1 ke2 ae2 : ℚ)
    (h1 : coeffGet c "Kmx" = some kmx) (h2 : coeffGet c "Ax" = some ax)
    (h3 : coeffGet c "Kmy" = some kmy) (h4 : coeffGet c "Ay" = some ay)
    (h5 : coeffGet c "Kmz" = some kmz) (h6 : coeffGet c "Az" = some az)
    (h7 : coeffGet c "Ke1" = some ke1) (h8 : coeffGet c "Ae1" = some ae1)
    (h9 : coeffGet c "Ke2" = some ke2) (h10 : coeffGet c "Ae2" = some ae2) :
    ∃ ks, getAll10 c = some ks ∧
      (calibrateRecord ks r).Bx = (r.Bx : ℚ) * kmx + ax ∧
      (calibrateRecord ks r).By = (r.By : ℚ) * kmy + ay ∧
      (calibrateRecord ks r).Bz = (r.Bz : ℚ) * kmz + az ∧
      (calibrateRecord ks r).Ex = (r.Ex : ℚ) * ke1 + ae1 ∧
      (calibrateRecord ks r).Ey = (r.Ey : ℚ) * ke2 + ae2 ∧
      (calibrateRecord ks r).timestampMs = (r.time : ℤ) * 1000 + (r.tick : ℤ) ∧
      ∀ bs, fromBinary (some bs) c =
        some ((decodeRecords (bs.drop 1024)).map (calibrateRecord ks)) := by
  refine ⟨(kmx, ax, kmy, ay, kmz, az, ke1, ae1, ke2, ae2), ?_,
    rfl, rfl, rfl, rfl, rfl, rfl, ?_⟩
  · simp [getAll10, h1, h2, h3, h4, h5, h6, h7, h8, h9, h10]
  · intro bs
    simp [fromBinary, getAll10, h1, h2, h3, h4, h5, h6, h7, h8, h9, h10]

/-- C10. `_from_binary` is atomic: the call either returns `None` and leaves
the stored `data` attribute exactly as it was, or it returns — and stores —
the table obtained by calibrating all five channels of every decoded record
with the ten coefficients; no partially calibrated table is ever returned or
stored. -/
theorem from_binary_atomic_c10 (bytes : Option (List ℕ)) (c : Coeffs)
    (st : Option (List CalibratedSample)) :
    fromBinaryStep bytes c st = (none, st) ∨
    ∃ bs ks, bytes = some bs ∧ getAll10 c = some ks ∧
      fromBinaryStep bytes c st =
        (some ((decodeRecords (bs.drop 1024)).map (calibrateRecord ks)),
         some ((decodeRecords (bs.drop 1024)).map (calibrateRecord ks))) := by
  cases bytes with
  | none => exact Or.inl rfl
  | some bs =>
    cases hks : getAll10 c with
    | none =>
      left
      simp [fromBinaryStep, fromBinary, hks]
    | some ks =>
      right
      exact ⟨bs, ks, rfl, rfl, by simp [fromBinaryStep, fromBinary, hks]⟩

/-- Range bound for a degrees-plus-minutes value with a hemisphere sign. -/
theorem degMin_signed_range (d : ℤ) (m bound : ℚ) (hd0 : 0 ≤ d)
    (hdb : (d : ℚ) ≤ bound - 1) (hm0 : 0 ≤ m) (hm60 : m < 60) (sg : ℚ)
    (hs : sg = -1 ∨ sg = 1) :
    -bound ≤ ((d : ℚ) + m / 60) * sg ∧ ((d : ℚ) + m / 60) * sg ≤ bound := by
  have hd0' : (0 : ℚ) ≤ (d : ℚ) := by exact_mod_cast hd0
  have hmd : m / 60 < 1 := (div_lt_one (by norm_num)).mpr hm60
  have hmd0 : (0 : ℚ) ≤ m / 60 := div_nonneg hm0 (by norm_num)
  have hx0 : (0 : ℚ) ≤ (d : ℚ) + m / 60 := by linarith
  have hxb : (d : ℚ) + m / 60 ≤ bound := by linarith
  rcases hs with hs | hs <;> subst hs <;> constructor <;> nlinarith

/-- C4. The parsed latitude is `int-degrees + minutes/60`, sign flipped for
hemisphere `S`; the parsed longitude is `int-degrees + minutes/60`, sign
flipped for hemisphere `W`; and for well-formed fields (degrees ≤ 89 resp.
≤ 179, minutes in `[0, 60)`) the results lie in `[-90, 90]` and
`[-180, 180]`. -/
theorem coordinates_formula_and_range_c4
    (latField lonField latS latD lonS lonD : List Char)
    (dla dlo : ℤ) (mla mlo : ℚ)
    (hsplit1 : splitChar ',' latField = [latS, latD])
    (h1 : parseInt (latS.take 2) = some dla)
    (h2 : parseFloat (latS.drop 2) = some mla)
    (hsplit2 : splitChar ',' lonField = [lonS, lonD])
    (h3 : parseInt (lonS.take 3) = some dlo)
    (h4 : parseFloat (lonS.drop 3) = some mlo)
    (hla : 0 ≤ dla ∧ dla ≤ 89 ∧ 0 ≤ mla ∧ mla < 60)
    (hlo : 0 ≤ dlo ∧ dlo ≤ 179 ∧ 0 ≤ mlo ∧ mlo < 60) :
    parseLatitude latField =
      some (((dla : ℚ) + mla / 60) * (if trimChars latD = ['S'] then -1 else 1)) ∧
    parseLongitude lonField =
      some (((dlo : ℚ) + mlo / 60) * (if trimChars lonD = ['W'] then -1 else 1)) ∧
    (∀ q, parseLatitude latField = some q → -90 ≤ q ∧ q ≤ 90) ∧
    (∀ q, parseLongitude lonField = some q → -180 ≤ q ∧ q ≤ 180) := by
  obtain ⟨hd0, hd89, hm0, hm60⟩ := hla
  obtain ⟨he0, he179, hn0, hn60⟩ := hlo
  have hlat : parseLatitude latField =
      some (((dla : ℚ) + mla / 60) * (if trimChars latD = ['S'] then -1 else 1)) := by
    simp [parseLatitude, hsplit1, twoParts, h1, h2]
  have hlon : parseLongitude lonField =
      some (((dlo : ℚ) + mlo / 60) * (if trimChars lonD = ['W'] then -1 else 1)) := by
    simp [parseLongitude, hsplit2, twoParts, h3, h4]
  refine ⟨hlat, hlon, ?_, ?_⟩
  · intro q hq
    rw [hlat] at hq
    have hqv := Option.some_injective _ hq
    rw [← hqv]
    exact degMin_signed_range dla mla 90 hd0 (by linarith [(by exact_mod_cast hd89 : (dla : ℚ) ≤ 89)]) hm0 hm60 _
      (by split <;> simp)
  · intro q hq
    rw [hlon] at hq
    have hqv := Option.some_injective _ hq
    rw [← hqv]
    exact degMin_signed_range dlo mlo 180 he0 (by linarith [(by exact_mod_cast he179 : (dlo : ℚ) ≤ 179)]) hn0 hn60 _
      (by split <;> simp)

/-- C5. `Read_Lemi_Header.read` is all-or-nothing: an unreadable header (no
lines) yields empty metadata, and otherwise the result is either empty
metadata or a metadata record every one of whose fields comes from a
successful extraction — partial metadata is never returned. -/
theorem header_read_all_or_nothing_c5 (header : List String) :
    (header = [] → headerRead header = none) ∧
    (headerRead header = none ∨
      ∃ m, headerRead header = some m ∧
        extractInstrumentNumber header = some m.instrument_number ∧
        extractDeploymentTime header = some m.deployment_time ∧
        extractCoefficients header = some m.coefficients ∧
        extractCoordinates header = some (m.latitude, m.longitude, m.elevation)) := by
  constructor
  · intro h; subst h; rfl
  · by_cases hemp : header.isEmpty
    · left; simp [headerRead, hemp]
    · cases h1 : extractInstrumentNumber header with
      | none => left; simp [headerRead, hemp, h1]
      | some inst =>
        cases h2 : extractDeploymentTime header with
        | none => left; simp [headerRead, hemp, h1, h2]
        | some dt =>
          cases h3 : extractCoefficients header with
          | none => left; simp [headerRead, hemp, h1, h2, h3]
          | some coeffs =>
            cases h4 : extractCoordinates header with
            | none => left; simp [headerRead, hemp, h1, h2, h3, h4]
            | some triple =>
              right
              obtain ⟨lat, lon, elev⟩ := triple
              refine ⟨⟨inst, dt, lat, lon, elev, coeffs⟩, ?_, rfl, rfl, rfl, rfl⟩
              simp [headerRead, hemp, h1, h2, h3, h4]

/-- Every branch of the loop body records the handled file in the trace. -/
theorem stepFile_trace (i : ℕ) (getF : String → FileInput) (st : LoopState)
    (name : String) :
    (stepFile i getF st name).trace = st.trace ++ [name] := by
  simp only [stepFile]
  split
  · rfl
  · split <;> rfl

/-- The loop handles exactly the given files, in the given order. -/
theorem foldl_trace (i : ℕ) (getF : String → FileInput) (names : List String) :
    ∀ st : LoopState,
      (names.foldl (stepFile i getF) st).trace = st.trace ++ names := by
  induction names with
  | nil => intro st; simp
  | cons n ns ih =>
    intro st
    rw [List.foldl_cons, ih, stepFile_trace]
    simp

/-- C6. The site builder selects exactly the `.B423` files of the folder
listing (the sorted selection is a permutation of the filtered listing),
sorts them ascending by the integer prefix of the filename, and the per-file
loop processes exactly that list in that order. -/
theorem file_selection_and_order_c6 (listing : List String) :
    (binaryFiles listing).Perm (listing.filter isB423) ∧
    List.Sorted fileLE (binaryFiles listing) ∧
    ∀ i (s : SiteInput), (siteState i s).trace = binaryFiles s.listing := by
  refine ⟨List.perm_insertionSort fileLE _, List.sorted_insertionSort fileLE _, ?_⟩
  intro i s
  unfold siteState
  rw [foldl_trace]
  simp [initLoop]

/-- The loop body's `sample_rate` update: keep an already computed rate,
otherwise take this file's first-second count when the file succeeds. -/
theorem stepFile_rate (i : ℕ) (getF : String → FileInput) (st : LoopState)
    (name : String) :
    (stepFile i getF st name).rate =
      (st.rate <|> (fileSamples (getF name)).map countFirstSecond) := by
  simp only [stepFile, fileSamples]
  split
  · simp
  · split <;> rename_i heq <;> simp [heq]

/-- Folded form of the `sample_rate` computation: the first computed value
wins; absent one, it is the first successful file's first-second count. -/
theorem foldl_rate (i : ℕ) (getF : String → FileInput) (names : List String) :
    ∀ st : LoopState,
      (names.foldl (stepFile i getF) st).rate =
        (st.rate <|> ((names.map getF).findSome? fileSamples).map countFirstSecond) := by
  induction names with
  | nil => intro st; simp
  | cons n ns ih =>
    intro st
    rw [List.foldl_cons, ih, stepFile_rate]
    cases hst : st.rate with
    | some r => simp
    | none =>
      simp only [Option.none_orElse, List.map_cons, List.findSome?_cons]
      cases hfs : fileSamples (getF n) with
      | none => simp
      | some v => simp

/-- C7. The inferred `sample_rate` of a site is the count of samples in the
first successfully processed file whose timestamp is within one second of
that file's earliest timestamp; it is computed once from that file and never
recomputed from later files, and the site summary reports exactly this
value. -/
theorem sample_rate_first_success_c7 (i : ℕ) (s : SiteInput) :
    (siteState i s).rate =
      (((binaryFiles s.listing).map s.file).findSome? fileSamples).map
        countFirstSecond ∧
    ∀ tbl sm, processSite i s = .ok (tbl, some sm) →
      sm.sampleRate = (siteState i s).rate := by
  constructor
  · unfold siteState
    rw [foldl_rate]
    simp [initLoop]
  · intro tbl sm h
    simp only [processSite] at h
    split at h
    · simp at h
    · split at h
      · simp at h
      · split at h
        · simp at h
        · rename_i m hm
          simp only [Except.ok.injEq, Prod.mk.injEq, Option.some.injEq] at h
          rw [← h.2]

/-- C3 (failing case). The per-file `try`/`except` does catch header errors
inside the loop, but the summary dict built *after* the loop reads the
`header_info` variable left over from the last iteration; when the last
file's header read fails (empty header metadata above), that access raises an
uncaught `KeyError` which escapes `process_site` to the orchestrator. The
concrete site has one `.B423` file whose header is unreadable: its header
parse yields empty metadata, and the site job ends in the uncaught-exception
state instead of a skip. -/
theorem header_error_escapes_site_c3 :
    headerRead (badHeaderSite.file "100.B423").header = none ∧
    processSite 0 badHeaderSite = .error () := by
  constructor
  · rfl
  · decide

/-- All-`none` site results collect to nothing. -/
theorem collectSites_all_none
    (results : List (Except Unit (Option (List Row) × Option SiteSummary)))
    (h : ∀ r ∈ results, tableOf r = none) : collectSites results = ([], []) := by
  have go : ∀ (rs : List (Except Unit (Option (List Row) × Option SiteSummary)))
      (acc : List (List Row) × List (Option SiteSummary)),
      (∀ r ∈ rs, tableOf r = none) →
      rs.foldl
        (fun acc r =>
          match r with
          | .error _ => acc
          | .ok (none, _) => acc
          | .ok (some df, md) => (acc.1 ++ [df], acc.2 ++ [md])) acc = acc := by
    intro rs
    induction rs with
    | nil => intro acc _; rfl
    | cons r rest ih =>
      intro acc hall
      have hr : tableOf r = none := hall r (List.mem_cons_self r rest)
      have htail : ∀ x ∈ rest, tableOf x = none :=
        fun x hx => hall x (List.mem_cons_of_mem r hx)
      clear hall
      rw [List.foldl_cons]
      rcases r with e | ⟨t, md⟩
      · exact ih acc htail
      · cases t with
        | none => exact ih acc htail
        | some df => simp [tableOf] at hr
  exact go results ([], []) h

/-- C9. When no site contributes any data, `process_all_sites` signals the
empty result explicitly: the merged time-series is `None` (not a table), the
metadata list is empty (not partially initialized), and the top-level guard
refuses to treat the output as a valid dataset. -/
theorem batch_empty_reported_c9 (sites : List SiteInput)
    (h : ∀ p ∈ sites.enum, tableOf (processSite p.1 p.2) = none) :
    (processAllSites sites).1 = none ∧ (processAllSites sites).2 = [] ∧
    mainRunsSummary (processAllSites sites) = false := by
  have hres : ∀ r ∈ sites.enum.map (fun p => processSite p.1 p.2),
      tableOf r = none := by
    intro r hr
    obtain ⟨p, hp, rfl⟩ := List.mem_map.mp hr
    exact h p hp
  have hc := collectSites_all_none _ hres
  refine ⟨?_, ?_, ?_⟩ <;> simp [processAllSites, mainRunsSummary, hc]

/-- C8. A site whose folder is absent, or whose folder yields no `.B423`
files, returns the skip signal (no rows, no summary) rather than an error;
and in a batch of three sites with one such missing site, the two healthy
sites still produce exactly two summaries. -/
theorem missing_site_skipped_c8 :
    (∀ i (s : SiteInput),
      s.folderExists = false ∨ binaryFiles s.listing = [] →
      processSite i s = .ok (none, none)) ∧
    (processAllSites [goodSite, missingSite, goodSite]).2.length = 2 := by
  constructor
  · intro i s h
    by_cases hf : s.folderExists = false
    · simp [processSite, hf]
    · rcases h with h | h
      · exact absurd h hf
      · simp [processSite, hf, h]
  · decide

/-! ### Witnesses: concrete instantiations of the hypotheses above -/

/-- A coefficients dict holding the ten required keys with distinct values. -/
def sampleCoeffs : Coeffs :=
  [("Kmx", 2), ("Ax", 3), ("Kmy", 4), ("Ay", 5), ("Kmz", 6), ("Az", 7),
   ("Ke1", 8), ("Ae1", 9), ("Ke2", 10), ("Ae2", 11)]

/-- A raw record with representative field values. -/
def sampleRaw : RawRecord := ⟨1000, 250, 7, -3, 5, -2, 9, -1, 4, 6⟩

/-- Thirty concrete bytes exercising both signs of every signed field. -/
def sampleRecordBytes : List ℕ :=
  [1, 0, 0, 0, 16, 39, 255, 255, 255, 255, 2, 0, 0, 0, 128, 0, 0, 0,
   0, 0, 0, 128, 255, 0, 0, 0, 200, 3, 255, 127]

/-- A file of 1084 zero bytes: a 1024-byte header plus two full records. -/
def sampleFileBytes : List ℕ := List.replicate 1084 0

/-- A well-formed latitude field `DDMM.mmmm,H`. -/
def latFieldSample : List Char := "3430.0000,S".data

/-- A well-formed longitude field `DDDMM.mmmm,H`. -/
def lonFieldSample : List Char := "13830.0000,E".data

section ConcreteEvaluation

attribute [local semireducible] Rat.add Rat.mul Rat.inv Rat.sub

/-- Witness for C1 at `sampleCoeffs` and `sampleRaw`. -/
theorem calibration_linear_c1_witness :
    ∃ ks, getAll10 sampleCoeffs = some ks ∧
      (calibrateRecord ks sampleRaw).Bx = (sampleRaw.Bx : ℚ) * 2 + 3 ∧
      (calibrateRecord ks sampleRaw).By = (sampleRaw.By : ℚ) * 4 + 5 ∧
      (calibrateRecord ks sampleRaw).Bz = (sampleRaw.Bz : ℚ) * 6 + 7 ∧
      (calibrateRecord ks sampleRaw).Ex = (sampleRaw.Ex : ℚ) * 8 + 9 ∧
      (calibrateRecord ks sampleRaw).Ey = (sampleRaw.Ey : ℚ) * 10 + 11 ∧
      (calibrateRecord ks sampleRaw).timestampMs =
        (sampleRaw.time : ℤ) * 1000 + (sampleRaw.tick : ℤ) ∧
      ∀ bs, fromBinary (some bs) sampleCoeffs =
        some ((decodeRecords (bs.drop 1024)).map (calibrateRecord ks)) :=
  calibration_linear_c1 sampleCoeffs sampleRaw 2 3 4 5 6 7 8 9 10 11
    (by decide) (by decide) (by decide) (by decide) (by decide)
    (by decide) (by decide) (by decide) (by decide) (by decide)

/-- Witness for C2 at `sampleRecordBytes` and `sampleFileBytes`. -/
theorem record_roundtrip_and_count_c2_witness :
    encodeRecord (decodeRecord sampleRecordBytes) = sampleRecordBytes ∧
    (decodeRecords (sampleFileBytes.drop 1024)).length =
      (sampleFileBytes.length - 1024) / 30 ∧
    (∀ c samples, fromBinary (some sampleFileBytes) c = some samples →
      samples.length = (sampleFileBytes.length - 1024) / 30) :=
  record_roundtrip_and_count_c2 sampleRecordBytes sampleFileBytes
    (by decide) (by decide)

/-- Witness for C4 at the sample coordinate fields. -/
theorem coordinates_formula_and_range_c4_witness :
    parseLatitude latFieldSample =
      some ((((34 : ℤ) : ℚ) + (30 : ℚ) / 60) *
        (if trimChars "S".data = ['S'] then -1 else 1)) ∧
    parseLongitude lonFieldSample =
      some ((((138 : ℤ) : ℚ) + (30 : ℚ) / 60) *
        (if trimChars "E".data = ['W'] then -1 else 1)) ∧
    (∀ q, parseLatitude latFieldSample = some q → -90 ≤ q ∧ q ≤ 90) ∧
    (∀ q, parseLongitude lonFieldSample = some q → -180 ≤ q ∧ q ≤ 180) :=
  coordinates_formula_and_range_c4 latFieldSample lonFieldSample
    "3430.0000".data "S".data "13830.0000".data "E".data 34 138 30 30
    (by decide) (by decide) (by decide) (by decide) (by decide) (by decide)
    (by decide) (by decide)

/-- Witness for C5 at the unreadable header. -/
theorem header_read_all_or_nothing_c5_witness :
    headerRead ([] : List String) = none :=
  (header_read_all_or_nothing_c5 []).1 rfl

/-- Witness for C7 at the one-file site `goodSite`. -/
theorem sample_rate_first_success_c7_witness :
    (⟨0, "S01", some 123, -(69 / 2 : ℚ), (277 / 2 : ℚ), 100, none, none,
      some 0, 50, 0, 50, 90⟩ : SiteSummary).sampleRate =
      (siteState 0 goodSite).rate :=
  (sample_rate_first_success_c7 0 goodSite).2 (some []) _ (by decide)

/-- Witness for C8 at the missing site. -/
theorem missing_site_skipped_c8_witness :
    processSite 7 missingSite = .ok (none, none) :=
  missing_site_skipped_c8.1 7 missingSite (Or.inl rfl)

/-- Witness for C9 at a one-site batch whose site folder is missing. -/
theorem batch_empty_reported_c9_witness :
    (processAllSites [missingSite]).1 = none ∧
    (processAllSites [missingSite]).2 = [] ∧
    mainRunsSummary (processAllSites [missingSite]) = false :=
  batch_empty_reported_c9 [missingSite] (by decide)

end ConcreteEvaluation
